import Mathlib

/-!
Verification of the TH-Suite MC L10n scanning core
(`apps/mc_l10n/frontend/src-tauri/src/main.rs`).

The Rust code is shallowly embedded as pure Lean functions:
  * strings are Lean `String`s (Rust byte indices only ever land on char
    boundaries in the code under study, so a `List Char` model is exact
    for the ASCII separators and filenames involved);
  * the filesystem is a finite tree of named entries (`FSTree`), with
    directory iteration order given by the order of the constructors;
  * `u32`/`usize` counters are modelled as `Nat` (the scanner only ever
    counts filesystem entries and translation keys, far below 2^32);
  * the external `serde_json` parser is modelled by `Json.parse`, a strict
    JSON recursive-descent parser whose object representation mirrors
    `serde_json::Map` (a `BTreeMap`: keys sorted, duplicates replaced);
  * fallible commands return `Except String`, mirroring
    `Result<_, String>`.
-/

/-! ### Generic string helpers -/

/-- Lowercase a string character-wise (models `str::to_lowercase` on the
ASCII names the scanner deals with). -/
def lowerStr (s : String) : String :=
  String.mk (s.data.map Char.toLower)

/-- Substring containment, modelling Rust `str::contains(&str)`. -/
def hasSub (s pat : String) : Bool :=
  (List.range (s.data.length + 1)).any (fun i => pat.data.isPrefixOf (s.data.drop i))

/-- Drop a leading pattern, modelling Rust `str::strip_prefix`. -/
def stripPre (s pre : String) : Option String :=
  if pre.data.isPrefixOf s.data then some (String.mk (s.data.drop pre.data.length))
  else none

/-- Strip all leading and trailing double quotes, modelling
`str::trim_matches('"')`. -/
def trimQuotes (s : String) : String :=
  String.mk (((s.data.dropWhile (fun c => c == '"')).reverse.dropWhile
    (fun c => c == '"')).reverse)

/-- Trim leading and trailing whitespace, modelling `str::trim` (the
whitespace actually appearing in manifest files: space, tab, CR, LF). -/
def trimChars (l : List Char) : List Char :=
  ((l.dropWhile Char.isWhitespace).reverse.dropWhile Char.isWhitespace).reverse

/-- Suffix test, modelling `str::ends_with`. -/
def endsWithStr (s suf : String) : Bool :=
  suf.data.reverse.isPrefixOf s.data.reverse

/-- Remove one trailing carriage return (the `\r` handling of
`str::lines`). -/
def dropCR (l : List Char) : List Char :=
  match l.reverse with
  | '\r' :: t => t.reverse
  | _ => l

/-- Split accumulated characters at every line feed. -/
def splitLinesAux : List Char → List Char → List String
  | [], acc => [String.mk (dropCR acc.reverse)]
  | c :: rest, acc =>
      if c == '\n' then String.mk (dropCR acc.reverse) :: splitLinesAux rest []
      else splitLinesAux rest (c :: acc)

/-- Split into lines, modelling Rust `str::lines` (split on `\n`, strip one
trailing `\r`).  Rust omits a final empty segment after a trailing newline;
the extra empty segment kept here is inert for every consumer below (it is
blank after trimming and matches no key prefix). -/
def linesOf (content : String) : List String :=
  splitLinesAux content.data []

/-- Index of the last occurrence of a character, if any. -/
def lastIdxOf (cs : List Char) (c : Char) : Option Nat :=
  match cs.reverse.findIdx? (fun x => x == c) with
  | some j => some (cs.length - 1 - j)
  | none => none

/-- `Path::extension`: the part of a file name after the last dot, none if
there is no dot or the only dot is the leading one (hidden files). -/
def pathExtension (name : String) : Option String :=
  match lastIdxOf name.data '.' with
  | some i => if i == 0 then none else some (String.mk (name.data.drop (i + 1)))
  | none => none

/-- `Path::file_stem`: the part of a file name before the last dot (the
whole name when `pathExtension` is none). -/
def pathStem (name : String) : String :=
  match lastIdxOf name.data '.' with
  | some i => if i == 0 then name else String.mk (name.data.take i)
  | none => name

/-- `Path::join` with the Unix separator. -/
def joinPath (a b : String) : String :=
  a ++ "/" ++ b

/-! ### Jar filename heuristics (`is_version_like`, `parse_jar_filename`) -/

/-- Embeds `is_version_like` (main.rs:766-790): non-empty, first char an
ASCII digit, contains a dot, and the first three of (up to) the first five
characters are digit, dot, digit; shorter strings fall through to `false`. -/
def is_version_like (s : String) : Bool :=
  let cs := s.data
  if cs.isEmpty then false
  else if !(cs.headD 'a').isDigit then false
  else if !cs.contains '.' then false
  else
    match cs.take 5 with
    | c0 :: c1 :: c2 :: _ => c0.isDigit && (c1 == '.') && c2.isDigit
    | _ => false

/-- Rightmost start index of `sep` inside `cs`, modelling `str::rfind` on
the ASCII separators used by the jar heuristic. -/
def rfindSub (cs sep : List Char) : Option Nat :=
  ((List.range (cs.length + 1)).filter (fun i => sep.isPrefixOf (cs.drop i))).getLast?

/-- One iteration of the separator loop in `parse_jar_filename`: split at
the rightmost occurrence of `sep` and keep the split only when the suffix
is version-like. -/
def try_sep (cs : List Char) (sep : String) : Option (List Char × List Char) :=
  match rfindSub cs sep.data with
  | some pos =>
      let candidate := (cs.drop pos).drop sep.data.length
      if is_version_like (String.mk candidate) then some (cs.take pos, candidate)
      else none
  | none => none

/-- The separator loop of `parse_jar_filename` (first success wins). -/
def try_seps (cs : List Char) : List String → Option (List Char × List Char)
  | [] => none
  | sep :: rest =>
      match try_sep cs sep with
      | some r => some r
      | none => try_seps cs rest

/-- Replace every underscore and dash by a space, modelling
`str::replace(['_', '-'], " ")`. -/
def seps_to_space (s : String) : String :=
  String.mk (s.data.map (fun c => if c == '_' || c == '-' then ' ' else c))

/-- Embeds `parse_jar_filename` (main.rs:744-763). -/
def parse_jar_filename (filename : String) : String × String :=
  match try_seps filename.data ["-", "_v", "_"] with
  | some (n, v) => (seps_to_space (String.mk n), String.mk v)
  | none => (seps_to_space filename, "1.0.0")

/-- The claim's reading of `parse_jar_filename`: form the rightmost-split
candidate of each separator in order and take the first whose suffix is
version-like. -/
def parse_jar_filename_claim (filename : String) : String × String :=
  let cs := filename.data
  let cands := (["-", "_v", "_"].filterMap (fun sep =>
    (rfindSub cs sep.data).map (fun pos => (cs.take pos, (cs.drop pos).drop sep.data.length))))
  match cands.find? (fun p => is_version_like (String.mk p.2)) with
  | some (n, v) => (seps_to_space (String.mk n), String.mk v)
  | none => (seps_to_space filename, "1.0.0")

/-- The claim's reading of `is_version_like`: the digit-dot-digit pattern
is only required "when s has at least 3 characters". -/
def is_version_like_claim (s : String) : Bool :=
  !s.data.isEmpty && (s.data.headD 'a').isDigit && s.data.contains '.' &&
    (match s.data with
     | c0 :: c1 :: c2 :: _ => c0.isDigit && (c1 == '.') && c2.isDigit
     | _ => true)

/-- The amended reading of `is_version_like`: at least 3 characters are
required, and the first three must be digit, dot, digit. -/
def is_version_like_amended (s : String) : Bool :=
  !s.data.isEmpty && (s.data.headD 'a').isDigit && s.data.contains '.' &&
    (match s.data with
     | c0 :: c1 :: c2 :: _ => c0.isDigit && (c1 == '.') && c2.isDigit
     | _ => false)

/-! ### JSON model

Models the external `serde_json` collaborator: `Json.parse` is a strict
JSON parser (exact whitespace set, no trailing garbage, control characters
must be escaped, no leading zeros) and objects mirror `serde_json::Map`,
i.e. a `BTreeMap<String, Value>`: members kept sorted by key, a duplicate
key replacing the earlier value.  Unicode surrogate-pair escapes are the
one unhandled corner (rejected here, outside every claim's inputs). -/

inductive Json where
  | null : Json
  | bool (b : Bool) : Json
  | num (lexeme : String) : Json
  | str (s : String) : Json
  | arr (elems : List Json) : Json
  | obj (members : List (String × Json)) : Json
deriving Repr

/-- Lexicographic order on character lists by code point; agrees with the
byte-wise `Ord` on Rust `String` (UTF-8 preserves code-point order). -/
def charsLt : List Char → List Char → Bool
  | [], [] => false
  | [], _ :: _ => true
  | _ :: _, [] => false
  | a :: as, b :: bs =>
      if a.toNat < b.toNat then true
      else if b.toNat < a.toNat then false
      else charsLt as bs

/-- Insert into a sorted member list, replacing an equal key
(`BTreeMap::insert`). -/
def objInsert (k : String) (v : Json) : List (String × Json) → List (String × Json)
  | [] => [(k, v)]
  | (k0, v0) :: rest =>
      if charsLt k.data k0.data then (k, v) :: (k0, v0) :: rest
      else if k == k0 then (k, v) :: rest
      else (k0, v0) :: objInsert k v rest

/-- JSON whitespace (space, tab, line feed, carriage return). -/
def skipWs (cs : List Char) : List Char :=
  cs.dropWhile (fun c => c == ' ' || c == '\t' || c == '\n' || c == '\r')

/-- Value of a hex digit, reading the code point numerically. -/
def hexDigit (c : Char) : Option Nat :=
  let n := c.toNat
  if 48 ≤ n && n ≤ 57 then some (n - 48)
  else if 97 ≤ n && n ≤ 102 then some (n - 87)
  else if 65 ≤ n && n ≤ 70 then some (n - 55)
  else none

/-- Resolve a single-character JSON escape (everything but `\u`). -/
def escChar (e : Char) : Option Char :=
  if e == '"' || e == '\\' || e == '/' then some e
  else if e == 'n' then some (Char.ofNat 10)
  else if e == 't' then some (Char.ofNat 9)
  else if e == 'r' then some (Char.ofNat 13)
  else if e == 'b' then some (Char.ofNat 8)
  else if e == 'f' then some (Char.ofNat 12)
  else none

/-- Body of a JSON string literal, after the opening quote. -/
def parseStrBody : List Char → List Char → Option (String × List Char)
  | [], _ => none
  | c :: rest, acc =>
    if c == '"' then some (String.mk acc.reverse, rest)
    else if c == '\\' then
      match rest with
      | 'u' :: h1 :: h2 :: h3 :: h4 :: rest3 =>
        (match hexDigit h1, hexDigit h2, hexDigit h3, hexDigit h4 with
         | some a, some b, some c2, some d =>
           let n := d + 16 * (c2 + 16 * (b + 16 * a))
           if 0xD800 ≤ n && n ≤ 0xDFFF then none
           else parseStrBody rest3 (Char.ofNat n :: acc)
         | _, _, _, _ => none)
      | e :: rest2 =>
        (match escChar e with
         | some ec => parseStrBody rest2 (ec :: acc)
         | none => none)
      | [] => none
    else if c.toNat < 0x20 then none
    else parseStrBody rest (c :: acc)

/-- A JSON number lexeme (strict grammar: no leading zeros, frac and exp
must carry digits).  Returns the lexeme and the remaining input. -/
def parseNumLex (cs : List Char) : Option (String × List Char) :=
  let (sign, cs1) := match cs with
    | '-' :: r => (['-'], r)
    | _ => (([] : List Char), cs)
  let intPart := cs1.takeWhile Char.isDigit
  let cs2 := cs1.dropWhile Char.isDigit
  if intPart.isEmpty then none
  else if intPart.length > 1 && intPart.headD '0' == '0' then none
  else
    let fracStep : Option (List Char × List Char) := match cs2 with
      | '.' :: r =>
          let ds := r.takeWhile Char.isDigit
          if ds.isEmpty then none else some ('.' :: ds, r.dropWhile Char.isDigit)
      | _ => some ([], cs2)
    match fracStep with
    | none => none
    | some (fracPart, cs3) =>
      let expStep : Option (List Char × List Char) := match cs3 with
        | e :: r =>
          if e == 'e' || e == 'E' then
            let (es, r2) := match r with
              | s :: r2 => if s == '+' || s == '-' then ([e, s], r2) else ([e], r)
              | [] => ([e], r)
            let ds := r2.takeWhile Char.isDigit
            if ds.isEmpty then none else some (es ++ ds, r2.dropWhile Char.isDigit)
          else some ([], cs3)
        | [] => some ([], cs3)
      match expStep with
      | none => none
      | some (expPart, cs4) =>
          some (String.mk (sign ++ intPart ++ fracPart ++ expPart), cs4)

/-- Parser mode: a single value, the members of an object after `{`, or the
elements of an array after `[`. -/
inductive PMode where
  | val : PMode
  | objMem (first : Bool) (acc : List (String × Json)) : PMode
  | arrElem (first : Bool) (acc : List Json) : PMode

/-- Fueled recursive-descent JSON parser.  Every recursive call consumes at
least one input character, so fuel `length + 1` is always sufficient. -/
def parseP : Nat → PMode → List Char → Option (Json × List Char)
  | 0, _, _ => none
  | Nat.succ f, PMode.val, cs =>
    match skipWs cs with
    | 'n' :: 'u' :: 'l' :: 'l' :: r => some (Json.null, r)
    | 't' :: 'r' :: 'u' :: 'e' :: r => some (Json.bool true, r)
    | 'f' :: 'a' :: 'l' :: 's' :: 'e' :: r => some (Json.bool false, r)
    | '"' :: r => (parseStrBody r []).map (fun p => (Json.str p.1, p.2))
    | '{' :: r => parseP f (PMode.objMem true []) r
    | '[' :: r => parseP f (PMode.arrElem true []) r
    | c :: r =>
        if c == '-' || c.isDigit then
          (parseNumLex (c :: r)).map (fun p => (Json.num p.1, p.2))
        else none
    | [] => none
  | Nat.succ f, PMode.objMem first acc, cs =>
    match skipWs cs with
    | '}' :: r => if first then some (Json.obj acc, r) else none
    | '"' :: r =>
      match parseStrBody r [] with
      | none => none
      | some (k, r2) =>
        match skipWs r2 with
        | ':' :: r3 =>
          match parseP f PMode.val r3 with
          | none => none
          | some (v, r4) =>
            match skipWs r4 with
            | ',' :: r5 => parseP f (PMode.objMem false (objInsert k v acc)) r5
            | '}' :: r5 => some (Json.obj (objInsert k v acc), r5)
            | _ => none
        | _ => none
    | _ => none
  | Nat.succ f, PMode.arrElem first acc, cs =>
    match skipWs cs with
    | ']' :: r => if first then some (Json.arr acc.reverse, r) else none
    | _ =>
      match parseP f PMode.val cs with
      | none => none
      | some (v, r2) =>
        match skipWs r2 with
        | ',' :: r3 => parseP f (PMode.arrElem false (v :: acc)) r3
        | ']' :: r3 => some (Json.arr (v :: acc).reverse, r3)
        | _ => none

/-- `serde_json::from_str::<Value>`: one complete value, at most trailing
whitespace. -/
def Json.parse (s : String) : Option Json :=
  match parseP (s.length + 1) PMode.val s.data with
  | some (j, rest) => if (skipWs rest).isEmpty then some j else none
  | none => none

/-- `Value::get(key)`: member lookup, none on non-objects. -/
def Json.getKey : Json → String → Option Json
  | Json.obj kvs, k => (kvs.find? (fun p => p.1 == k)).map Prod.snd
  | _, _ => none

/-- `Value::as_str`. -/
def Json.asStr : Json → Option String
  | Json.str s => some s
  | _ => none

/-- `Value::as_object` (the member list, sorted by key). -/
def Json.asObj : Json → Option (List (String × Json))
  | Json.obj kvs => some kvs
  | _ => none

/-- `Value::as_array`. -/
def Json.asArr : Json → Option (List Json)
  | Json.arr xs => some xs
  | _ => none

/-! ### Filesystem model

A directory's contents are a finite ordered list of named entries,
encoded as a cons-list so that all traversals are plain structural
recursion.  `FSTree` is the entry list of one directory; an `FSNode` is
what a name resolves to. -/

inductive FSTree where
  | nil : FSTree
  | fileE (name : String) (content : String) (rest : FSTree) : FSTree
  | dirE (name : String) (children : FSTree) (rest : FSTree) : FSTree

inductive FSNode where
  | fileN (content : String) : FSNode
  | dirN (children : FSTree) : FSNode

/-- Resolve a name in a directory (first entry wins). -/
def FSTree.lookup : FSTree → String → Option FSNode
  | FSTree.nil, _ => none
  | FSTree.fileE n c rest, name => if n == name then some (FSNode.fileN c) else rest.lookup name
  | FSTree.dirE n ch rest, name => if n == name then some (FSNode.dirN ch) else rest.lookup name

/-- `path.exists()` followed by `fs::read_to_string(path).ok()?`: some
content exactly when the name resolves to a file (a directory exists but
cannot be read as a string, which the readers treat the same as absence). -/
def getFile (root : FSTree) (name : String) : Option String :=
  match root.lookup name with
  | some (FSNode.fileN c) => some c
  | _ => none

/-! ### Manifest detection (`ManifestDetector`) -/

structure ModpackManifest where
  name : String
  version : String
  author : Option String
  description : Option String
  minecraft_version : String
  loader : String
  loader_version : String
  platform : String
  license : Option String
deriving DecidableEq, Repr

/-- Embeds `extract_toml_value` (main.rs:670-677): first line whose trimmed
form starts with `key = `, with surrounding double quotes stripped. -/
def extract_toml_value (content key : String) : Option String :=
  (linesOf content).findSome? (fun line =>
    (stripPre (String.mk (trimChars line.data)) (key ++ " = ")).map trimQuotes)

/-- Embeds `extract_cfg_value` (main.rs:679-686): first line whose trimmed
form starts with `key=`. -/
def extract_cfg_value (content key : String) : Option String :=
  (linesOf content).findSome? (fun line =>
    stripPre (String.mk (trimChars line.data)) (key ++ "="))

/-- Embeds `read_curseforge_manifest` (main.rs:582-603). -/
def read_curseforge_manifest (root : FSTree) : Option ModpackManifest := do
  let content ← getFile root "manifest.json"
  let j ← Json.parse content
  let nameV ← (j.getKey "name").bind Json.asStr
  let versionV ← (j.getKey "version").bind Json.asStr
  let authorV ← j.getKey "author"
  let descV ← j.getKey "description"
  let mcObj ← j.getKey "minecraft"
  let mcVersion ← (mcObj.getKey "version").bind Json.asStr
  let loaders ← (mcObj.getKey "modLoaders").bind Json.asArr
  let firstLoader ← loaders.head?
  let loaderVer ← (firstLoader.getKey "id").bind Json.asStr
  pure { name := nameV, version := versionV, author := authorV.asStr,
         description := descV.asStr, minecraft_version := mcVersion,
         loader := "Forge", loader_version := loaderVer,
         platform := "CurseForge", license := none }

/-- Embeds `read_modrinth_manifest` (main.rs:605-625). -/
def read_modrinth_manifest (root : FSTree) : Option ModpackManifest := do
  let content ← getFile root "modrinth.index.json"
  let j ← Json.parse content
  let nameV ← (j.getKey "name").bind Json.asStr
  let versionV ← (j.getKey "versionId").bind Json.asStr
  let summaryV ← j.getKey "summary"
  let depsV ← j.getKey "dependencies"
  let mcVersion ← (depsV.getKey "minecraft").bind Json.asStr
  let depsObj ← depsV.asObj
  let loaderKey ← (depsObj.map Prod.fst).find? (fun k => !(k == "minecraft"))
  let loaderVerV ← (depsObj.map Prod.snd)[1]?
  let loaderVer ← loaderVerV.asStr
  pure { name := nameV, version := versionV, author := none,
         description := summaryV.asStr, minecraft_version := mcVersion,
         loader := loaderKey, loader_version := loaderVer,
         platform := "Modrinth", license := none }

/-- Embeds `read_packwiz_manifest` (main.rs:627-647): every field is
defaulted, so the probe succeeds whenever `pack.toml` is readable. -/
def read_packwiz_manifest (root : FSTree) : Option ModpackManifest := do
  let content ← getFile root "pack.toml"
  pure { name := (extract_toml_value content "name").getD "Packwiz Modpack",
         version := (extract_toml_value content "version").getD "1.0.0",
         author := extract_toml_value content "author",
         description := none,
         minecraft_version := (extract_toml_value content "mc-version").getD "1.20.1",
         loader := (extract_toml_value content "mod-loader").getD "fabric",
         loader_version := (extract_toml_value content "loader-version").getD "latest",
         platform := "Packwiz", license := none }

/-- Embeds `read_multimc_manifest` (main.rs:649-668): every field is
defaulted or hardcoded, so the probe succeeds whenever `instance.cfg` is
readable. -/
def read_multimc_manifest (root : FSTree) : Option ModpackManifest := do
  let content ← getFile root "instance.cfg"
  pure { name := (extract_cfg_value content "name").getD "MultiMC Instance",
         version := "1.0.0", author := none, description := none,
         minecraft_version := (extract_cfg_value content "IntendedVersion").getD "1.20.1",
         loader := "Forge", loader_version := "latest",
         platform := "MultiMC", license := none }

/-- Embeds `detect_modpack` (main.rs:545-555). -/
def detect_modpack (root : FSTree) : Bool :=
  ["manifest.json", "modrinth.index.json", "pack.toml", "instance.cfg"].any
    (fun f => (root.lookup f).isSome)

/-- Embeds `scan_modpack_manifest` (main.rs:558-580): the four probes in
fixed priority order, first success wins. -/
def scan_modpack_manifest (root : FSTree) : Option ModpackManifest :=
  match read_curseforge_manifest root with
  | some m => some m
  | none =>
    match read_modrinth_manifest root with
    | some m => some m
    | none =>
      match read_packwiz_manifest root with
      | some m => some m
      | none => read_multimc_manifest root

/-! ### Mod jar catalog (`ModJarCatalog`) -/

structure ModJarMetadata where
  mod_id : String
  display_name : String
  version : String
  loader : String
  authors : List String
  homepage : Option String
  description : Option String
  environment : String
deriving DecidableEq, Repr

/-- Embeds `extract_mod_metadata` (main.rs:723-741); `name` is the file
name of the jar, metadata is derived purely from it. -/
def extract_mod_metadata (name : String) : ModJarMetadata :=
  let stem := pathStem name
  let nv := parse_jar_filename stem
  { mod_id := String.mk ((lowerStr stem).data.map (fun c => if c == ' ' then '_' else c)),
    display_name := nv.1,
    version := nv.2,
    loader := "unknown",
    authors := ["Unknown"],
    homepage := none,
    description := some ("Mod from " ++ stem),
    environment := "universal" }

/-- One `read_dir` pass of `scan_mod_jars`: metadata for every plain file
with extension `jar`, in directory order. -/
def jar_entries : FSTree → List ModJarMetadata
  | FSTree.nil => []
  | FSTree.fileE n _ rest =>
      if pathExtension n == some "jar" then extract_mod_metadata n :: jar_entries rest
      else jar_entries rest
  | FSTree.dirE _ _ rest => jar_entries rest

/-- Embeds `scan_mod_jars` (main.rs:689-720): jars under `mods/` (when it
is a readable directory) followed by jars directly at the project root,
with no deduplication between the two sources. -/
def scan_mod_jars (root : FSTree) : List ModJarMetadata :=
  (match root.lookup "mods" with
   | some (FSNode.dirN ch) => jar_entries ch
   | _ => []) ++ jar_entries root

/-! ### Language resource scanner (`LanguageResourceScanner`) -/

structure LanguageResource where
  namespaceName : String
  locale : String
  source_path : String
  source_type : String
  key_count : Nat
  priority : Nat
deriving DecidableEq, Repr

/-- Embeds `is_language_file` (main.rs:985-994): `fullPath` is the whole
path string, `name` its final component (Rust reads the extension from the
final component of the same path). -/
def is_language_file (fullPath name : String) : Bool :=
  match pathExtension name with
  | some e => (e == "json" || e == "lang") && (hasSub fullPath "lang" || hasSub fullPath "i18n")
  | none => false

/-- The `.lang` line filter of `count_language_keys`: after trimming, the
line is non-empty, does not start with `#`, and contains `=`. -/
def lang_line (line : String) : Bool :=
  let t := trimChars line.data
  !t.isEmpty && !(match t with | '#' :: _ => true | _ => false) && t.contains '='

/-- Embeds `count_language_keys` (main.rs:858-876): `.json` files count
top-level keys of a parsed object (0 on parse failure or a non-object),
`.lang` files count trimmed non-empty non-comment lines containing `=`. -/
def count_language_keys (name content : String) : Nat :=
  if pathExtension name == some "json" then
    match Json.parse content with
    | some (Json.obj kvs) => kvs.length
    | _ => 0
  else if pathExtension name == some "lang" then
    ((linesOf content).filter lang_line).length
  else 0

/-- Embeds `create_language_resource` (main.rs:840-855). -/
def create_language_resource (fullPath name content ns st : String) : LanguageResource :=
  { namespaceName := ns, locale := pathStem name, source_path := fullPath,
    source_type := st, key_count := count_language_keys name content,
    priority := 1 }

/-- The `lang/` directory loop of `scan_resourcepack_lang_files`: one entry
per plain file passing `is_language_file`. -/
def lang_dir_entries (dirPath ns : String) : FSTree → List LanguageResource
  | FSTree.nil => []
  | FSTree.fileE n c rest =>
      if is_language_file (joinPath dirPath n) n then
        create_language_resource (joinPath dirPath n) n c ns "resourcepack" :: lang_dir_entries dirPath ns rest
      else lang_dir_entries dirPath ns rest
  | FSTree.dirE _ _ rest => lang_dir_entries dirPath ns rest

/-- The namespace loop of `scan_resourcepack_lang_files`: every directory
entry under `assets/` contributes its `lang/` subdirectory's entries. -/
def namespace_entries (projectPath : String) : FSTree → List LanguageResource
  | FSTree.nil => []
  | FSTree.fileE _ _ rest => namespace_entries projectPath rest
  | FSTree.dirE ns ch rest =>
      (match ch.lookup "lang" with
       | some (FSNode.dirN lt) =>
           lang_dir_entries (joinPath (joinPath (joinPath projectPath "assets") ns) "lang") ns lt
       | _ => []) ++ namespace_entries projectPath rest

/-- Embeds `scan_language_resources` / `scan_resourcepack_lang_files`
(main.rs:793-837); jar-internal language files are explicitly not scanned
upstream. -/
def scan_language_resources (projectPath : String) (root : FSTree) : List LanguageResource :=
  match root.lookup "assets" with
  | some (FSNode.dirN ns) => namespace_entries projectPath ns
  | _ => []

/-! ### Quick scan (`DirectoryClassifier`) -/

structure FileInfo where
  name : String
  path : String
  is_directory : Bool
  size : Nat
  modified_time : String
deriving DecidableEq, Repr

structure SimpleScanResult where
  total_files : Nat
  jar_files : List FileInfo
  lang_files : List FileInfo
  modpack_files : List FileInfo
  errors : List String
deriving DecidableEq, Repr

/-- Embeds `is_modpack_file` (main.rs:996-1005). -/
def is_modpack_file (name : String) : Bool :=
  let n := lowerStr name
  n == "manifest.json" || n == "modrinth.index.json" || n == "pack.toml" ||
  n == "instance.cfg" || n == "mmc-pack.json" || n == "modlist.html"

/-- The `FileInfo` built for a plain file during the walk.  `size` is the
byte size of the stored content; the pure model has no clock, so the
modified time is the code's fallback string. -/
def mkFileInfo (dirPath n c : String) : FileInfo :=
  { name := n, path := joinPath dirPath n, is_directory := false,
    size := (c.data.map Char.utf8Size).sum, modified_time := "Unknown" }

/-- Embeds `scan_directory_recursive` (main.rs:934-983): every directory
entry (file or directory) bumps `total_files`; plain files are classified
into at most one bucket in the order jar, language, modpack; directories
recurse with no depth limit.  The pure filesystem has no I/O failures, so
the error-collection branch never fires. -/
def scan_walk (dirPath : String) (t : FSTree) (acc : SimpleScanResult) : SimpleScanResult :=
  match t with
  | FSTree.nil => acc
  | FSTree.fileE n c rest =>
      let acc1 := { acc with total_files := acc.total_files + 1 }
      let fi := mkFileInfo dirPath n c
      let acc2 :=
        if endsWithStr n ".jar" then { acc1 with jar_files := acc1.jar_files ++ [fi] }
        else if is_language_file (joinPath dirPath n) n then
          { acc1 with lang_files := acc1.lang_files ++ [fi] }
        else if is_modpack_file n then
          { acc1 with modpack_files := acc1.modpack_files ++ [fi] }
        else acc1
      scan_walk dirPath rest acc2
  | FSTree.dirE n ch rest =>
      let acc1 := { acc with total_files := acc.total_files + 1 }
      scan_walk dirPath rest (scan_walk (joinPath dirPath n) ch acc1)

/-- Embeds the `scan_directory` command (main.rs:906-932) for an existing
directory. -/
def scan_directory (dirPath : String) (t : FSTree) : SimpleScanResult :=
  scan_walk dirPath t
    { total_files := 0, jar_files := [], lang_files := [], modpack_files := [], errors := [] }

/-! ### Scan orchestrator and registry -/

structure ScanResult where
  scan_id : String
  project_path : String
  scan_started_at : String
  scan_completed_at : Option String
  modpack_manifest : Option ModpackManifest
  mod_jars : List ModJarMetadata
  language_resources : List LanguageResource
  total_mods : Nat
  total_language_files : Nat
  total_translatable_keys : Nat
  supported_locales : List String
  warnings : List String
  errors : List String
deriving DecidableEq, Repr

/-- The `ScanResult` assembled by `perform_project_scan` (main.rs:447-515).
The Rust code deduplicates locales through a `HashSet` and then sorts; a
sort of `dedup` produces the same list, since a sorted list of distinct
strings is unique up to permutation of its input.  Started/completed
timestamps enter as parameters (the pure model has no clock). -/
def scanResultOf (sid pp : String) (root : FSTree) (startedAt completedAt : String) : ScanResult :=
  let manifest := if detect_modpack root then scan_modpack_manifest root else none
  let jars := scan_mod_jars root
  let resources := scan_language_resources pp root
  { scan_id := sid, project_path := pp, scan_started_at := startedAt,
    scan_completed_at := some completedAt,
    modpack_manifest := manifest, mod_jars := jars, language_resources := resources,
    total_mods := jars.length,
    total_language_files := resources.length,
    total_translatable_keys := (resources.map (fun r => r.key_count)).sum,
    supported_locales :=
      List.insertionSort (fun a b => a ≤ b) (resources.map (fun r => r.locale)).dedup,
    warnings := [], errors := [] }

/-- Embeds `perform_project_scan` (main.rs:447-515).  The function's type
is `Result<ScanResult, String>`, but its body swallows every internal
filesystem and parse failure into defaults or empty lists and its only
return is `Ok(scan_result)`; progress emission is fire-and-forget and does
not affect the result. -/
def perform_project_scan (sid pp : String) (root : FSTree) (startedAt completedAt : String) :
    Except String ScanResult :=
  Except.ok (scanResultOf sid pp root startedAt completedAt)

/-- The scan registry (`ScanState`): a mutex-guarded `HashMap` from scan id
to result, modelled as an association list with insert-replace. -/
abbrev Registry := List (String × ScanResult)

/-- `HashMap::insert`. -/
def regInsert : Registry → String → ScanResult → Registry
  | [], k, v => [(k, v)]
  | (k0, v0) :: rest, k, v =>
      if k0 == k then (k, v) :: rest else (k0, v0) :: regInsert rest k v

/-- `HashMap::get`. -/
def regLookup : Registry → String → Option ScanResult
  | [], _ => none
  | (k0, v0) :: rest, k => if k0 == k then some v0 else regLookup rest k

/-- Embeds the `get_scan_result` command (main.rs:228-237). -/
def get_scan_result (reg : Registry) (sid : String) : Except String ScanResult :=
  match regLookup reg sid with
  | some r => Except.ok r
  | none => Except.error "Scan result not found"

/-- The completion step of the task spawned by `start_project_scan`
(main.rs:214-225): `if let Ok(scan_result) = result` inserts into the
registry, and a failed result is discarded leaving the registry
unchanged. -/
def store_scan_outcome (reg : Registry) (sid : String) (outcome : Except String ScanResult) :
    Registry :=
  match outcome with
  | Except.ok r => regInsert reg sid r
  | Except.error _ => reg

/-! ### Shared helper lemmas -/

/-- Inserting into the registry makes the key resolve to the new value. -/
theorem regLookup_insert (reg : Registry) (k : String) (v : ScanResult) :
    regLookup (regInsert reg k v) k = some v := by
  induction reg with
  | nil => simp [regInsert, regLookup]
  | cons hd rest ih =>
    obtain ⟨k0, v0⟩ := hd
    by_cases h : (k0 == k) = true
    · simp [regInsert, h, regLookup]
    · simp only [regInsert, Bool.not_eq_true] at *
      simp [h, regLookup, ih]

/-- Every manifest produced by the CurseForge probe carries the hardcoded
platform tag. -/
theorem read_cf_platform {root : FSTree} {m : ModpackManifest}
    (h : read_curseforge_manifest root = some m) : m.platform = "CurseForge" := by
  simp only [read_curseforge_manifest, Option.bind_eq_bind, Option.bind_eq_some,
    Option.pure_def, Option.some.injEq] at h
  obtain ⟨c, h1, j, h2, n, hn, v, hv, a3, h5, a4, h6, mc, h7, mv, h8, ls, h9, fl, h10, lv,
    h11, hm⟩ := h
  rw [← hm]

/-- The separator loop of `parse_jar_filename` equals a find-first over the
rightmost-split candidates of the separators. -/
theorem try_seps_eq (cs : List Char) (seps : List String) :
    try_seps cs seps = (seps.filterMap (fun sep =>
      (rfindSub cs sep.data).map (fun pos =>
        (cs.take pos, (cs.drop pos).drop sep.data.length)))).find?
          (fun p => is_version_like (String.mk p.2)) := by
  induction seps with
  | nil => rfl
  | cons sep rest ih =>
    rw [List.filterMap_cons]
    cases h : rfindSub cs sep.data with
    | none =>
      have e2 : try_sep cs sep = none := by simp only [try_sep, h]
      have e1 : try_seps cs (sep :: rest) = try_seps cs rest := by
        simp only [try_seps, e2]
      rw [e1, Option.map_none']
      exact ih
    | some pos =>
      have e2 : try_sep cs sep =
          if is_version_like (String.mk ((cs.drop pos).drop sep.data.length)) then
            some (cs.take pos, (cs.drop pos).drop sep.data.length)
          else none := by
        simp only [try_sep, h]
      rw [Option.map_some']
      cases hv : is_version_like (String.mk ((cs.drop pos).drop sep.data.length)) with
      | true =>
        have e1 : try_seps cs (sep :: rest) =
            some (cs.take pos, (cs.drop pos).drop sep.data.length) := by
          simp only [try_seps, e2, hv, if_true]
        rw [e1, List.find?_cons_of_pos _ (by exact hv)]
      | false =>
        have e1 : try_seps cs (sep :: rest) = try_seps cs rest := by
          simp only [try_seps, e2, hv, Bool.false_eq_true, reduceIte]
        rw [e1, List.find?_cons_of_neg _ (by simpa using hv)]
        exact ih

/-- A name resolving to a file with extension `jar` contributes its
metadata to the directory's jar catalog. -/
theorem mem_jar_entries {t : FSTree} {name c : String}
    (hl : t.lookup name = some (FSNode.fileN c))
    (hj : (pathExtension name == some "jar") = true) :
    extract_mod_metadata name ∈ jar_entries t := by
  induction t with
  | nil => simp [FSTree.lookup] at hl
  | fileE n cc rest ih =>
    by_cases h : (n == name) = true
    · have hn : n = name := by simpa using h
      subst hn
      simp [jar_entries, hj]
    · rw [FSTree.lookup, if_neg (by simpa using h)] at hl
      have hm := ih hl
      rw [jar_entries]
      split
      · exact List.mem_cons_of_mem _ hm
      · exact hm
  | dirE n ch rest ihch ih =>
    by_cases h : (n == name) = true
    · rw [FSTree.lookup, if_pos h] at hl
      simp at hl
    · rw [FSTree.lookup, if_neg (by simpa using h)] at hl
      exact ih hl

/-! ### Concrete inputs used by the claim theorems -/

/-- A root where both `manifest.json` and `pack.toml` exist but the
CurseForge manifest is malformed (empty file, JSON parse failure). -/
def c1BadRoot : FSTree :=
  FSTree.fileE "manifest.json" "" (FSTree.fileE "pack.toml" "" FSTree.nil)

/-- A complete CurseForge `manifest.json`. -/
def cfSample : String :=
  "\x7b\"name\":\"Pack\",\"version\":\"1.0\",\"author\":\"A\",\"description\":\"D\",\"minecraft\":\x7b\"version\":\"1.20.1\",\"modLoaders\":[\x7b\"id\":\"forge-47.2.0\"\x7d]\x7d\x7d"

/-- A root where both `manifest.json` (well-formed) and `pack.toml`
exist. -/
def c1GoodRoot : FSTree :=
  FSTree.fileE "manifest.json" cfSample (FSTree.fileE "pack.toml" "" FSTree.nil)

/-- The manifest the CurseForge probe extracts from `cfSample`. -/
def c1GoodManifest : ModpackManifest :=
  { name := "Pack", version := "1.0", author := some "A", description := some "D",
    minecraft_version := "1.20.1", loader := "Forge", loader_version := "forge-47.2.0",
    platform := "CurseForge", license := none }

/-- A root whose `pack.toml` exists but is empty: every required field of
the unified manifest record is missing from it. -/
def c2PackRoot : FSTree := FSTree.fileE "pack.toml" "" FSTree.nil

/-- A root whose `manifest.json` parses but lacks the required `name`. -/
def c2CFRoot : FSTree :=
  FSTree.fileE "manifest.json" "\x7b\"version\":\"1.0\"\x7d" FSTree.nil

/-- A root whose `modrinth.index.json` parses but lacks the required
`name`. -/
def c2MRRoot : FSTree :=
  FSTree.fileE "modrinth.index.json" "\x7b\"versionId\":\"1.0\"\x7d" FSTree.nil

/-- A root whose `manifest.json` parses but lacks the required
`version`. -/
def c2CFRoot2 : FSTree :=
  FSTree.fileE "manifest.json" "\x7b\"name\":\"P\"\x7d" FSTree.nil

/-- A root whose `modrinth.index.json` parses but whose dependency map
has no non-minecraft entry, so the required loader (and loader version)
cannot be extracted. -/
def c2MRRoot2 : FSTree :=
  FSTree.fileE "modrinth.index.json"
    "\x7b\"name\":\"P\",\"versionId\":\"1\",\"summary\":\"s\",\"dependencies\":\x7b\"minecraft\":\"1.20\"\x7d\x7d"
    FSTree.nil

/-- The parse of `c2MRRoot2`'s index file (keys in sorted map order). -/
def c2MRRoot2Json : Json :=
  Json.obj [("dependencies", Json.obj [("minecraft", Json.str "1.20")]),
            ("name", Json.str "P"), ("summary", Json.str "s"),
            ("versionId", Json.str "1")]

/-- A root whose `instance.cfg` exists but is empty. -/
def c2MMCRoot : FSTree := FSTree.fileE "instance.cfg" "" FSTree.nil

/-- The quick-scan test tree: one jar, one language file at
`assets/foo/lang/en_us.json`, one `manifest.json`, one unrelated text
file. -/
def c7Tree : FSTree :=
  FSTree.fileE "examplemod-1.2.3.jar" "PK" (
  FSTree.dirE "assets" (
    FSTree.dirE "foo" (
      FSTree.dirE "lang" (FSTree.fileE "en_us.json" "\x7b\"a\":\"1\",\"b\":\"2\"\x7d" FSTree.nil)
        FSTree.nil)
      FSTree.nil) (
  FSTree.fileE "manifest.json" "\x7b\x7d" (
  FSTree.fileE "readme.txt" "hello" FSTree.nil)))

/-- A root carrying `dup-1.0.jar` both under `mods/` and at the root. -/
def c8Root : FSTree :=
  FSTree.dirE "mods" (FSTree.fileE "dup-1.0.jar" "x" FSTree.nil)
    (FSTree.fileE "dup-1.0.jar" "y" FSTree.nil)

/-- A concrete completed scan result for registry tests. -/
def c9Result : ScanResult :=
  { scan_id := "scan-1", project_path := "p", scan_started_at := "t0",
    scan_completed_at := some "t1", modpack_manifest := none, mod_jars := [],
    language_resources := [], total_mods := 0, total_language_files := 0,
    total_translatable_keys := 0, supported_locales := [], warnings := [], errors := [] }

/-! ### Claim theorems -/

/-- C1 (amended): manifest detection tries the four probes in the fixed
priority order CurseForge, Modrinth, Packwiz, MultiMC and returns the
first successful probe; for every project root at which both
`manifest.json` and `pack.toml` exist AND the CurseForge probe succeeds,
detection returns that manifest and its platform field is "CurseForge". -/
theorem C1_detection_priority :
    (∀ root, scan_modpack_manifest root =
      (((read_curseforge_manifest root <|> read_modrinth_manifest root) <|>
        read_packwiz_manifest root) <|> read_multimc_manifest root)) ∧
    (∀ root m, (root.lookup "manifest.json").isSome = true →
      (root.lookup "pack.toml").isSome = true →
      read_curseforge_manifest root = some m →
      scan_modpack_manifest root = some m ∧ m.platform = "CurseForge") := by
  constructor
  · intro root
    unfold scan_modpack_manifest
    cases read_curseforge_manifest root <;>
      cases read_modrinth_manifest root <;>
        cases read_packwiz_manifest root <;> simp
  · intro root m _ _ hcf
    exact ⟨by simp [scan_modpack_manifest, hcf], read_cf_platform hcf⟩

set_option maxRecDepth 8000 in
/-- C1 witness: on a root holding a well-formed `manifest.json` next to a
`pack.toml`, detection returns the CurseForge manifest. -/
theorem C1_detection_priority_witness :
    scan_modpack_manifest c1GoodRoot = some c1GoodManifest ∧
    c1GoodManifest.platform = "CurseForge" :=
  C1_detection_priority.2 c1GoodRoot c1GoodManifest rfl rfl (by decide)

/-- C1 counterexample: with both `manifest.json` and `pack.toml` present
but `manifest.json` malformed (empty), detection returns the Packwiz
manifest, not the CurseForge one, refuting the unconditional priority
sentence. -/
theorem C1_detection_priority_counterexample :
    (c1BadRoot.lookup "manifest.json").isSome = true ∧
    (c1BadRoot.lookup "pack.toml").isSome = true ∧
    (scan_modpack_manifest c1BadRoot).map (fun m => m.platform) = some "Packwiz" ∧
    ¬((scan_modpack_manifest c1BadRoot).map (fun m => m.platform) = some "CurseForge") := by
  refine ⟨rfl, rfl, rfl, by decide⟩

set_option maxHeartbeats 1600000 in
/-- C2 (amended): for the CurseForge and Modrinth probes, a probe file
that exists but lacks any required field of the unified record — for
CurseForge the sources of name, version, minecraft version and loader
version (`name`, `version`, `minecraft.version`, `minecraft.modLoaders`);
for Modrinth those of name, version, minecraft version, loader and loader
version (`name`, `versionId`, `dependencies.minecraft`, a non-minecraft
dependency key, a second dependency value) — yields no manifest, and
detection falls through to the remaining formats with no error surfaced;
the Packwiz and MultiMC probes never require any field — whenever their
file is readable they succeed, substituting documented defaults for
missing fields. -/
theorem C2_probe_soft_failure :
    (∀ root content j, getFile root "manifest.json" = some content →
      Json.parse content = some j →
      (j.getKey "name" = none ∨ j.getKey "version" = none ∨
        (j.getKey "minecraft").bind (fun mc => mc.getKey "version") = none ∨
        (j.getKey "minecraft").bind (fun mc => mc.getKey "modLoaders") = none) →
      read_curseforge_manifest root = none) ∧
    (∀ root content j, getFile root "modrinth.index.json" = some content →
      Json.parse content = some j →
      (j.getKey "name" = none ∨ j.getKey "versionId" = none ∨
        (j.getKey "dependencies").bind (fun d => d.getKey "minecraft") = none ∨
        ((j.getKey "dependencies").bind Json.asObj).bind
          (fun kvs => (kvs.map Prod.fst).find? (fun k => !(k == "minecraft"))) = none ∨
        ((j.getKey "dependencies").bind Json.asObj).bind
          (fun kvs => (kvs.map Prod.snd)[1]?) = none) →
      read_modrinth_manifest root = none) ∧
    (∀ root, read_curseforge_manifest root = none →
      read_modrinth_manifest root = none →
      scan_modpack_manifest root =
        (read_packwiz_manifest root <|> read_multimc_manifest root)) ∧
    (∀ root content, getFile root "pack.toml" = some content →
      read_packwiz_manifest root ≠ none) ∧
    (∀ root content, getFile root "instance.cfg" = some content →
      read_multimc_manifest root ≠ none) := by
  refine ⟨?_, ?_, ?_, ?_, ?_⟩
  · intro root content j h1 h2 hmiss
    cases hr : read_curseforge_manifest root with
    | none => rfl
    | some m =>
      exfalso
      simp only [read_curseforge_manifest, Option.bind_eq_bind, Option.bind_eq_some,
        Option.pure_def, Option.some.injEq] at hr
      obtain ⟨c, hc, j2, hj2, n, ⟨n1, hn1, hn2⟩, v, ⟨v1, hv1, hv2⟩, a3, h5, a4, h6,
        mc, h7, mv, ⟨mv1, hmv1, hmv2⟩, ls, ⟨ls1, hls1, hls2⟩, fl, h10, lv, h11, hm⟩ := hr
      rw [h1, Option.some.injEq] at hc
      subst hc
      rw [h2, Option.some.injEq] at hj2
      subst hj2
      rcases hmiss with h | h | h | h
      · rw [h] at hn1; exact Option.noConfusion hn1
      · rw [h] at hv1; exact Option.noConfusion hv1
      · rw [h7, Option.some_bind] at h
        rw [h] at hmv1; exact Option.noConfusion hmv1
      · rw [h7, Option.some_bind] at h
        rw [h] at hls1; exact Option.noConfusion hls1
  · intro root content j h1 h2 hmiss
    cases hr : read_modrinth_manifest root with
    | none => rfl
    | some m =>
      exfalso
      simp only [read_modrinth_manifest, Option.bind_eq_bind, Option.bind_eq_some,
        Option.pure_def, Option.some.injEq] at hr
      obtain ⟨c, hc, j2, hj2, n, ⟨n1, hn1, hn2⟩, v, ⟨v1, hv1, hv2⟩, s3, h5, d, hd,
        mv, ⟨mv1, hmv1, hmv2⟩, dobj, hdobj, lk, hlk, lvv, hlvv, lv, hlv, hm⟩ := hr
      rw [h1, Option.some.injEq] at hc
      subst hc
      rw [h2, Option.some.injEq] at hj2
      subst hj2
      rcases hmiss with h | h | h | h | h
      · rw [h] at hn1; exact Option.noConfusion hn1
      · rw [h] at hv1; exact Option.noConfusion hv1
      · rw [hd, Option.some_bind] at h
        rw [h] at hmv1; exact Option.noConfusion hmv1
      · rw [hd, Option.some_bind, hdobj, Option.some_bind] at h
        rw [h] at hlk; exact Option.noConfusion hlk
      · rw [hd, Option.some_bind, hdobj, Option.some_bind] at h
        rw [h] at hlvv; exact Option.noConfusion hlvv
  · intro root hcf hmr
    unfold scan_modpack_manifest
    rw [hcf, hmr]
    cases read_packwiz_manifest root <;> simp
  · intro root content h
    simp [read_packwiz_manifest, h]
  · intro root content h
    simp [read_multimc_manifest, h]

/-- C2 witness: the amended conjuncts at concrete roots — a
`manifest.json` missing `name` and another missing `version`, a
`modrinth.index.json` missing `name` and another whose dependency map has
no non-minecraft entry (no loader source), and an empty `pack.toml` and
`instance.cfg`. -/
theorem C2_probe_soft_failure_witness :
    read_curseforge_manifest c2CFRoot = none ∧
    read_curseforge_manifest c2CFRoot2 = none ∧
    read_modrinth_manifest c2MRRoot = none ∧
    read_modrinth_manifest c2MRRoot2 = none ∧
    scan_modpack_manifest c2PackRoot =
      (read_packwiz_manifest c2PackRoot <|> read_multimc_manifest c2PackRoot) ∧
    read_packwiz_manifest c2PackRoot ≠ none ∧
    read_multimc_manifest c2MMCRoot ≠ none := by
  obtain ⟨p1, p2, p3, p4, p5⟩ := C2_probe_soft_failure
  exact ⟨p1 c2CFRoot "\x7b\"version\":\"1.0\"\x7d" (Json.obj [("version", Json.str "1.0")])
          rfl rfl (Or.inl rfl),
         p1 c2CFRoot2 "\x7b\"name\":\"P\"\x7d" (Json.obj [("name", Json.str "P")])
          rfl rfl (Or.inr (Or.inl rfl)),
         p2 c2MRRoot "\x7b\"versionId\":\"1.0\"\x7d" (Json.obj [("versionId", Json.str "1.0")])
          rfl rfl (Or.inl rfl),
         p2 c2MRRoot2
          "\x7b\"name\":\"P\",\"versionId\":\"1\",\"summary\":\"s\",\"dependencies\":\x7b\"minecraft\":\"1.20\"\x7d\x7d"
          c2MRRoot2Json rfl rfl (Or.inr (Or.inr (Or.inr (Or.inl rfl)))),
         p3 c2PackRoot rfl rfl,
         p4 c2PackRoot "" rfl,
         p5 c2MMCRoot "" rfl⟩

/-- C2 counterexample: `pack.toml` exists but is empty, so every required
field of the unified record is missing, yet the Packwiz probe still
returns a manifest (built from defaults) instead of failing softly. -/
theorem C2_probe_soft_failure_counterexample :
    getFile c2PackRoot "pack.toml" = some "" ∧
    extract_toml_value "" "name" = none ∧
    extract_toml_value "" "version" = none ∧
    extract_toml_value "" "mc-version" = none ∧
    extract_toml_value "" "mod-loader" = none ∧
    extract_toml_value "" "loader-version" = none ∧
    read_packwiz_manifest c2PackRoot ≠ none := by
  refine ⟨rfl, rfl, rfl, rfl, rfl, rfl, by decide⟩

/-- C3: `parse_jar_filename` tries the separators "-", "_v", "_" in that
order, splitting at the rightmost occurrence of each and accepting the
first suffix that is version-like; the prefix with underscores and dashes
replaced by spaces becomes the name, the suffix the version, and with no
version-like suffix the whole stem (spaces substituted) is the name with
version "1.0.0"; in particular on "examplemod-1.2.3" and "randomfile". -/
theorem C3_parse_jar_filename_spec :
    (∀ fn, parse_jar_filename fn = parse_jar_filename_claim fn) ∧
    parse_jar_filename "examplemod-1.2.3" = ("examplemod", "1.2.3") ∧
    parse_jar_filename "randomfile" = ("randomfile", "1.0.0") := by
  refine ⟨fun fn => ?_, by decide, by decide⟩
  simp only [parse_jar_filename, parse_jar_filename_claim, try_seps_eq]

/-- C4 (amended): `is_version_like s` is true iff s is non-empty, its
first character is an ASCII digit, it contains a dot, it has AT LEAST 3
characters, and its first three characters are digit, dot, digit (strings
of one or two characters are never version-like); with the spec's
examples. -/
theorem C4_is_version_like_spec :
    (∀ s, is_version_like s = is_version_like_amended s) ∧
    is_version_like "1.2" = true ∧
    is_version_like "abc" = false ∧
    is_version_like "" = false := by
  refine ⟨fun s => ?_, by decide, by decide, by decide⟩
  unfold is_version_like is_version_like_amended
  generalize s.data = cs
  rcases cs with _ | ⟨a, _ | ⟨b, _ | ⟨c, rest⟩⟩⟩
  · rfl
  · cases ha : a.isDigit <;> simp [ha, List.take]
  · cases ha : a.isDigit <;> cases hc : [a, b].contains '.' <;>
      simp [ha, hc, List.take]
  · by_cases hb : b = '.'
    · subst hb
      cases ha : a.isDigit <;> cases hcd : c.isDigit <;>
        simp [ha, hcd, List.take]
    · cases ha : a.isDigit <;> cases hc : (a :: b :: c :: rest).contains '.' <;>
        simp [ha, hc, List.take, hb]

/-- C4 counterexample: "1." is version-like under the claim's conditional
reading (fewer than 3 characters, so the digit-dot-digit check is waived)
but the code returns false for every string shorter than 3 characters. -/
theorem C4_is_version_like_counterexample :
    is_version_like_claim "1." = true ∧ is_version_like "1." = false := by
  exact ⟨by decide, by decide⟩

/-- C5: `count_language_keys` on a `.json` file returns the number of
top-level keys of a parsed JSON object and 0 on parse failure or a
non-object top level, never raising an error (it is a total function);
on a `.lang` file it returns the number of lines that, after trimming,
are non-empty, do not start with '#', and contain '='; with the spec's
two concrete examples. -/
theorem C5_count_language_keys_spec :
    (∀ name content kvs, pathExtension name = some "json" →
        Json.parse content = some (Json.obj kvs) →
        count_language_keys name content = kvs.length) ∧
    (∀ name content, pathExtension name = some "json" →
        Json.parse content = none → count_language_keys name content = 0) ∧
    (∀ name content j, pathExtension name = some "json" →
        Json.parse content = some j → j.asObj = none →
        count_language_keys name content = 0) ∧
    (∀ name content, pathExtension name = some "lang" →
        count_language_keys name content = ((linesOf content).filter lang_line).length) ∧
    count_language_keys "en_us.json" "\x7b\"a\":\"1\",\"b\":\"2\"\x7d" = 2 ∧
    count_language_keys "en_us.lang" "key1=value1\nkey2=value2\n\n# comment" = 2 := by
  refine ⟨?_, ?_, ?_, ?_, by decide, by decide⟩
  · intro name content kvs h1 h2
    simp [count_language_keys, h1, h2]
  · intro name content h1 h2
    simp [count_language_keys, h1, h2]
  · intro name content j h1 h2 h3
    cases j <;> simp_all [count_language_keys, Json.asObj]
  · intro name content h1
    simp [count_language_keys, h1]

/-- C5 witness: the four conditional parts applied at concrete inputs (a
one-key object, a malformed document, an array top level, and a `.lang`
document). -/
theorem C5_count_language_keys_witness :
    count_language_keys "a.json" "\x7b\"k\":\"v\"\x7d" = 1 ∧
    count_language_keys "b.json" "\x7b" = 0 ∧
    count_language_keys "c.json" "[\"x\"]" = 0 ∧
    count_language_keys "d.lang" "a=b\n# c\n\nd=e" = 2 := by
  obtain ⟨p1, p2, p3, p4, _, _⟩ := C5_count_language_keys_spec
  refine ⟨p1 "a.json" _ [("k", Json.str "v")] rfl rfl,
          p2 "b.json" "\x7b" rfl rfl,
          p3 "c.json" "[\"x\"]" (Json.arr [Json.str "x"]) rfl rfl rfl, ?_⟩
  rw [p4 "d.lang" "a=b\n# c\n\nd=e" rfl]
  decide

/-- C6: every `ScanResult` assembled by a completed orchestrator run has
`total_translatable_keys` equal to the sum of `key_count` over its
language resources, `supported_locales` equal to the sorted deduplicated
set of their locales, `total_mods` equal to the jar list length, and
`total_language_files` equal to the language-resource list length. -/
theorem C6_scan_result_invariants :
    ∀ sid pp root startedAt completedAt,
      (scanResultOf sid pp root startedAt completedAt).total_translatable_keys =
        ((scanResultOf sid pp root startedAt completedAt).language_resources.map
          (fun r => r.key_count)).sum ∧
      (scanResultOf sid pp root startedAt completedAt).total_mods =
        (scanResultOf sid pp root startedAt completedAt).mod_jars.length ∧
      (scanResultOf sid pp root startedAt completedAt).total_language_files =
        (scanResultOf sid pp root startedAt completedAt).language_resources.length ∧
      List.Sorted (fun a b => a ≤ b)
        (scanResultOf sid pp root startedAt completedAt).supported_locales ∧
      (scanResultOf sid pp root startedAt completedAt).supported_locales.Nodup ∧
      ∀ l, l ∈ (scanResultOf sid pp root startedAt completedAt).supported_locales ↔
        l ∈ (scanResultOf sid pp root startedAt completedAt).language_resources.map
          (fun r => r.locale) := by
  intro sid pp root t1 t2
  refine ⟨rfl, rfl, rfl, ?_, ?_, ?_⟩
  · exact List.sorted_insertionSort _ _
  · exact ((List.perm_insertionSort _ _).nodup_iff).mpr (List.nodup_dedup _)
  · intro l
    simp [scanResultOf, List.mem_dedup]

/-- C7 (amended): on the four-file test tree the quick scan classifies one
jar file, one language file and one modpack file, collects no errors, and
counts 7 filesystem entries in total: the four files plus the directories
`assets`, `assets/foo` and `assets/foo/lang`, since every directory entry
visited increments the counter. -/
theorem C7_quick_scan_example :
    (scan_directory "project" c7Tree).jar_files.length = 1 ∧
    (scan_directory "project" c7Tree).lang_files.length = 1 ∧
    (scan_directory "project" c7Tree).modpack_files.length = 1 ∧
    (scan_directory "project" c7Tree).errors = [] ∧
    (scan_directory "project" c7Tree).total_files = 7 := by
  refine ⟨by decide, by decide, by decide, by decide, by decide⟩

/-- C7 counterexample: on that tree `total_files` is 7, not the claimed 4,
because the recursive walk increments the counter for directories as well
as files. -/
theorem C7_quick_scan_counterexample :
    (scan_directory "project" c7Tree).total_files = 7 ∧
    ¬((scan_directory "project" c7Tree).total_files = 4) := by
  exact ⟨by decide, by decide⟩

/-- C8: the jar catalog concatenates two independently enumerated sources
— jar files directly under `mods/` and jar files directly under the
project root — without deduplication, so a jar filename resolving to a
file in both locations contributes (at least) two identical metadata
entries to the returned list. -/
theorem C8_jar_catalog_no_dedup :
    (∀ root, scan_mod_jars root =
      (match root.lookup "mods" with
       | some (FSNode.dirN ch) => jar_entries ch
       | _ => []) ++ jar_entries root) ∧
    (∀ root ch name c1 c2,
      root.lookup "mods" = some (FSNode.dirN ch) →
      ch.lookup name = some (FSNode.fileN c1) →
      root.lookup name = some (FSNode.fileN c2) →
      (pathExtension name == some "jar") = true →
      2 ≤ (scan_mod_jars root).countP
        (fun x => decide (x = extract_mod_metadata name))) := by
  refine ⟨fun root => rfl, ?_⟩
  intro root ch name c1 c2 h1 h2 h3 h4
  have m1 : extract_mod_metadata name ∈ jar_entries ch := mem_jar_entries h2 h4
  have m2 : extract_mod_metadata name ∈ jar_entries root := mem_jar_entries h3 h4
  have p1 : 0 < (jar_entries ch).countP (fun x => decide (x = extract_mod_metadata name)) :=
    List.countP_pos_iff.mpr ⟨_, m1, by simp⟩
  have p2 : 0 < (jar_entries root).countP (fun x => decide (x = extract_mod_metadata name)) :=
    List.countP_pos_iff.mpr ⟨_, m2, by simp⟩
  have e : scan_mod_jars root = jar_entries ch ++ jar_entries root := by
    simp [scan_mod_jars, h1]
  rw [e, List.countP_append]
  omega

/-- C8 witness: a root carrying `dup-1.0.jar` both under `mods/` and at
the root yields at least two entries for its metadata. -/
theorem C8_jar_catalog_no_dedup_witness :
    2 ≤ (scan_mod_jars c8Root).countP
      (fun x => decide (x = extract_mod_metadata "dup-1.0.jar")) :=
  C8_jar_catalog_no_dedup.2 c8Root (FSTree.fileE "dup-1.0.jar" "x" FSTree.nil)
    "dup-1.0.jar" "x" "y" rfl rfl rfl rfl

/-- C9: `get_scan_result` on a scan id absent from the registry fails with
the NotFound-style error "Scan result not found"; the spawned completion
step writes an entry only on a successful outcome (a failed outcome
leaves the registry unchanged); after a successful completion,
`get_scan_result` on that id returns the stored result. -/
theorem C9_registry_contract :
    (∀ reg sid, regLookup reg sid = none →
      get_scan_result reg sid = Except.error "Scan result not found") ∧
    (∀ reg sid msg, store_scan_outcome reg sid (Except.error msg) = reg) ∧
    (∀ reg sid r, get_scan_result (store_scan_outcome reg sid (Except.ok r)) sid =
      Except.ok r) := by
  refine ⟨?_, ?_, ?_⟩
  · intro reg sid h
    simp [get_scan_result, h]
  · intro reg sid msg
    rfl
  · intro reg sid r
    simp [get_scan_result, store_scan_outcome, regLookup_insert]

/-- C9 witness: the registry contract at concrete states — the empty
registry misses an unknown id, a failed outcome writes nothing, and a
stored result is returned. -/
theorem C9_registry_contract_witness :
    get_scan_result [] "missing" = Except.error "Scan result not found" ∧
    store_scan_outcome [] "scan-1" (Except.error "boom") = [] ∧
    get_scan_result (store_scan_outcome [] "scan-1" (Except.ok c9Result)) "scan-1" =
      Except.ok c9Result := by
  obtain ⟨p1, p2, p3⟩ := C9_registry_contract
  exact ⟨p1 [] "missing" rfl, p2 [] "scan-1" "boom", p3 [] "scan-1" c9Result⟩

/-- C10: `perform_project_scan` returns `Ok` for every input (every
internal filesystem or parse failure is swallowed into defaults or empty
lists, so its error branch — and with it the discarding branch of
`start_project_scan`'s completion step — is unreachable), hence every
spawned scan inserts its result under its scan id and a subsequent
`get_scan_result` retrieves it. -/
theorem C10_perform_scan_always_ok :
    ∀ sid pp root startedAt completedAt reg,
      perform_project_scan sid pp root startedAt completedAt =
        Except.ok (scanResultOf sid pp root startedAt completedAt) ∧
      store_scan_outcome reg sid (perform_project_scan sid pp root startedAt completedAt) =
        regInsert reg sid (scanResultOf sid pp root startedAt completedAt) ∧
      get_scan_result
        (store_scan_outcome reg sid (perform_project_scan sid pp root startedAt completedAt))
        sid = Except.ok (scanResultOf sid pp root startedAt completedAt) := by
  intro sid pp root t1 t2 reg
  refine ⟨rfl, rfl, ?_⟩
  simp [get_scan_result, store_scan_outcome, perform_project_scan, regLookup_insert]
